import Mathlib

/-!
# Verification of the attendance application's core logic

Shallow embedding of the attendance application's data model
(`attendance/models.py`) and views (`attendance/views.py`): the roster
and absence stores, the attendance session walker (`take_attendance`,
`mark_attendance`), the report generator (`print_absentees`,
`absentees_list`) and the roster importer (`import_students`).

Dates and datetimes are modelled structurally; the ambient wall clock
(`timezone.now()`) is passed as an explicit parameter.  The relational
stores are modelled as lists of rows, with Django ORM calls
(`get_or_create`, `filter(...).delete()`, `order_by`, `exists`)
translated to the corresponding list operations.
-/

namespace AttApp

/-- A calendar date, as produced by `datetime.date` / `DateTimeField.date()`. -/
structure Date where
  year : Nat
  month : Nat
  day : Nat
deriving DecidableEq, Repr

/-- A point in time: a calendar date plus a time-of-day component.
Models Python `datetime` values stored in `Absence.date_time`. -/
structure DateTime where
  date : Date
  secondsOfDay : Nat
deriving DecidableEq, Repr

/-- A row of the `Student` table (`models.py`): name, unique roll number,
course name.  `id` is the auto primary key. -/
structure Student where
  id : Nat
  student_name : String
  roll_number : String
  course_name : String
deriving DecidableEq, Repr

/-- A row of the `Absence` table (`models.py`): owning student (foreign key)
and the timestamp of the absence event. -/
structure Absence where
  student_id : Nat
  date_time : DateTime
deriving DecidableEq, Repr

/-- The relational store: the `Student` and `Absence` tables, plus the
auto-increment counter for student primary keys. -/
@[ext]
structure DB where
  students : List Student
  absences : List Absence
  nextStudentId : Nat
deriving DecidableEq, Repr

/-- `Absence.objects.filter(student=..., date_time__date=...)`:
the absence rows of student `sid` dated `d`. -/
def absencesFor (db : DB) (sid : Nat) (d : Date) : List Absence :=
  db.absences.filter (fun a => decide (a.student_id = sid ∧ a.date_time.date = d))

/-- Number of absence rows for student `sid` dated `d`. -/
def countFor (db : DB) (sid : Nat) (d : Date) : Nat :=
  (absencesFor db sid d).length

/-- The absence rows that are NOT for `(sid, d)`: the part of the absence
store a mark call for student `sid` on day `d` must leave untouched. -/
def otherRows (db : DB) (sid : Nat) (d : Date) : List Absence :=
  db.absences.filter (fun a => !decide (a.student_id = sid ∧ a.date_time.date = d))

/-- `Student.objects.get(id=sid)` as used by `get_object_or_404`. -/
def studentById (db : DB) (sid : Nat) : Option Student :=
  db.students.find? (fun s => decide (s.id = sid))

/-- The `action` POST parameter of `mark_attendance`: `'absent'` takes the
absence-creating branch, anything else the deleting branch. -/
inductive Decision where
  | present
  | absent
deriving DecidableEq, Repr

/-- Errors `mark_attendance` can raise: `Http404` from `get_object_or_404`,
and `MultipleObjectsReturned` from `get_or_create` when more than one
absence row matches `(student, date_time__date=today)`. -/
inductive MarkError where
  | notFound
  | multipleObjectsReturned
deriving DecidableEq, Repr

/-- Outcome of one `mark_attendance` request: the store afterwards, the
error raised if any (errors leave the store unchanged), and the `index`
of the redirect to `/take-attendance/`. -/
structure MarkResult where
  db : DB
  error : Option MarkError
  nextIndex : Nat
deriving DecidableEq, Repr

/-- `mark_attendance` (`views.py`): look up the student; if the decision is
ABSENT, `get_or_create` an absence row for `(student, today)` with
`date_time = now` as creation default (the `date_time__date` lookup is used
for the get but dropped from the creation parameters); if PRESENT, delete
every absence row for `(student, today)`.  Redirect to `index = current + 1`. -/
def mark_attendance (db : DB) (sid : Nat) (currentIndex : Nat)
    (action : Decision) (now : DateTime) : MarkResult :=
  match studentById db sid with
  | none => { db := db, error := some .notFound, nextIndex := currentIndex + 1 }
  | some _ =>
    match action with
    | .absent =>
      match absencesFor db sid now.date with
      | [] =>
        { db := { db with
            absences := db.absences ++ [{ student_id := sid, date_time := now }] },
          error := none, nextIndex := currentIndex + 1 }
      | [_] => { db := db, error := none, nextIndex := currentIndex + 1 }
      | _ => { db := db, error := some .multipleObjectsReturned,
               nextIndex := currentIndex + 1 }
    | .present =>
      { db := { db with
          absences := db.absences.filter
            (fun a => !decide (a.student_id = sid ∧ a.date_time.date = now.date)) },
        error := none, nextIndex := currentIndex + 1 }

/-- Lexicographic comparison of character sequences by code point, the
order SQL `ORDER BY` applies to the text `roll_number` column. -/
def lexLe : List Char → List Char → Bool
  | [], _ => true
  | _ :: _, [] => false
  | a :: as, b :: bs =>
    if a.toNat < b.toNat then true
    else if b.toNat < a.toNat then false
    else lexLe as bs

lemma lexLe_total : ∀ xs ys : List Char, lexLe xs ys = true ∨ lexLe ys xs = true
  | [], _ => Or.inl rfl
  | _ :: _, [] => Or.inr rfl
  | x :: xs, y :: ys => by
    by_cases h1 : x.toNat < y.toNat
    · exact Or.inl (by simp [lexLe, h1])
    · by_cases h2 : y.toNat < x.toNat
      · exact Or.inr (by simp [lexLe, h2])
      · rcases lexLe_total xs ys with h | h
        · exact Or.inl (by simp [lexLe, h1, h2, h])
        · exact Or.inr (by simp [lexLe, h1, h2, h])

lemma lexLe_trans : ∀ xs ys zs : List Char,
    lexLe xs ys = true → lexLe ys zs = true → lexLe xs zs = true
  | [], _, _, _, _ => rfl
  | _ :: _, [], _, h1, _ => by simp [lexLe] at h1
  | _ :: _, _ :: _, [], _, h2 => by simp [lexLe] at h2
  | x :: xs, y :: ys, z :: zs, h1, h2 => by
    simp only [lexLe] at h1 h2 ⊢
    rcases Nat.lt_trichotomy x.toNat y.toNat with hxy | hxy | hxy <;>
      rcases Nat.lt_trichotomy y.toNat z.toNat with hyz | hyz | hyz
    · rw [if_pos (show x.toNat < z.toNat by omega)]
    · rw [if_pos (show x.toNat < z.toNat by omega)]
    · rw [if_neg (show ¬ y.toNat < z.toNat by omega),
        if_pos (show z.toNat < y.toNat by omega)] at h2
      exact absurd h2 Bool.false_ne_true
    · rw [if_pos (show x.toNat < z.toNat by omega)]
    · rw [if_neg (show ¬ x.toNat < y.toNat by omega),
        if_neg (show ¬ y.toNat < x.toNat by omega)] at h1
      rw [if_neg (show ¬ y.toNat < z.toNat by omega),
        if_neg (show ¬ z.toNat < y.toNat by omega)] at h2
      rw [if_neg (show ¬ x.toNat < z.toNat by omega),
        if_neg (show ¬ z.toNat < x.toNat by omega)]
      exact lexLe_trans xs ys zs h1 h2
    · rw [if_neg (show ¬ y.toNat < z.toNat by omega),
        if_pos (show z.toNat < y.toNat by omega)] at h2
      exact absurd h2 Bool.false_ne_true
    · rw [if_neg (show ¬ x.toNat < y.toNat by omega),
        if_pos (show y.toNat < x.toNat by omega)] at h1
      exact absurd h1 Bool.false_ne_true
    · rw [if_neg (show ¬ x.toNat < y.toNat by omega),
        if_pos (show y.toNat < x.toNat by omega)] at h1
      exact absurd h1 Bool.false_ne_true
    · rw [if_neg (show ¬ x.toNat < y.toNat by omega),
        if_pos (show y.toNat < x.toNat by omega)] at h1
      exact absurd h1 Bool.false_ne_true

/-- The `order_by('roll_number')` comparison: lexicographic string order
on roll numbers. -/
def rollLe (a b : Student) : Prop :=
  lexLe a.roll_number.data b.roll_number.data = true

instance : DecidableRel rollLe :=
  fun a b =>
    inferInstanceAs (Decidable (lexLe a.roll_number.data b.roll_number.data = true))

instance : IsTotal Student rollLe :=
  ⟨fun a b => lexLe_total a.roll_number.data b.roll_number.data⟩

instance : IsTrans Student rollLe :=
  ⟨fun _ _ _ hab hbc => lexLe_trans _ _ _ hab hbc⟩

/-- `Student.objects.all().order_by('roll_number')`.  The ORM delegates the
ordering to SQL `ORDER BY`; any sort by the roll-number key models it. -/
def sortedStudents (db : DB) : List Student :=
  db.students.insertionSort rollLe

/-- Outcome of one `take_attendance` request: either the redirect to
`attendance_complete` (position at or beyond the roster size), or the page
showing the current student, position, roster size, and whether the student
is already marked absent today. -/
inductive TakeResult where
  | redirectComplete
  | page (student : Student) (currentIndex : Nat) (totalStudents : Nat)
      (isAbsentToday : Bool)
deriving DecidableEq, Repr

/-- `take_attendance` (`views.py`): students ordered by roll number; if
`index >= len(students)` redirect to the completion page, else render the
student at `index` with `is_absent_today` computed by
`Absence.objects.filter(student=..., date_time__date=today).exists()`. -/
def take_attendance (db : DB) (index : Nat) (today : Date) : TakeResult :=
  if h : index < (sortedStudents db).length then
    .page ((sortedStudents db).get ⟨index, h⟩) index (sortedStudents db).length
      (!(absencesFor db ((sortedStudents db).get ⟨index, h⟩).id today).isEmpty)
  else
    .redirectComplete

/-- `Absence.objects.filter(date_time__date=d)`: all absence rows dated `d`. -/
def absencesOn (db : DB) (d : Date) : List Absence :=
  db.absences.filter (fun a => decide (a.date_time.date = d))

/-- The roll number of the student owning an absence row, used by
`order_by('student__roll_number')` (empty for a dangling foreign key,
which the `ForeignKey` constraint rules out). -/
def absenceRoll (db : DB) (a : Absence) : String :=
  ((studentById db a.student_id).map (fun s => s.roll_number)).getD ""

/-- The `order_by('student__roll_number')` comparison on absence rows. -/
def absRollLe (db : DB) (a b : Absence) : Prop :=
  lexLe (absenceRoll db a).data (absenceRoll db b).data = true

instance (db : DB) : DecidableRel (absRollLe db) :=
  fun a b =>
    inferInstanceAs (Decidable (lexLe (absenceRoll db a).data (absenceRoll db b).data = true))

instance (db : DB) : IsTotal Absence (absRollLe db) :=
  ⟨fun a b => lexLe_total (absenceRoll db a).data (absenceRoll db b).data⟩

instance (db : DB) : IsTrans Absence (absRollLe db) :=
  ⟨fun _ _ _ hab hbc => lexLe_trans _ _ _ hab hbc⟩

/-- `order_by('student__roll_number')` on a list of absence rows. -/
def sortAbsencesByRoll (db : DB) (l : List Absence) : List Absence :=
  l.insertionSort (absRollLe db)

/-- Floor of a rational, computed from its normalised numerator and
denominator by flooring integer division. -/
def ratFloor (q : ℚ) : ℤ :=
  Int.fdiv q.num (q.den : ℤ)

/-- Models Python's built-in `round` to the nearest integer: round half to
even (banker's rounding). -/
def roundHalfEven (q : ℚ) : ℤ :=
  let f := ratFloor q
  let r := q - (f : ℚ)
  if r < 1/2 then f
  else if 1/2 < r then f + 1
  else if f % 2 = 0 then f else f + 1

/-- Models Python's `round(x, 2)`: round to two decimal places,
half to even. -/
def pyRound2 (q : ℚ) : ℚ :=
  ((roundHalfEven (q * 100) : ℚ)) / 100

/-- The rendering context of `print_absentees`: today's absence rows
ordered by the student's roll number, and the aggregate counts.
`total_present` is a Python `int`, hence an integer (it can go negative
only on stores that violate the one-row-per-day invariant). -/
structure Report where
  absent_rows : List Absence
  total_absent : Nat
  total_present : Int
  total_students : Nat
  attendance_percentage : ℚ
deriving DecidableEq, Repr

/-- `print_absentees` (`views.py`): absences dated `today` ordered by
`student__roll_number`; `total_students = Student.objects.count()`;
`total_present = total_students - absent_students.count()`;
`attendance_percentage = round((total_present / total_students * 100) if
total_students > 0 else 0, 2)`. -/
def print_absentees (db : DB) (today : Date) : Report :=
  let absent_students := sortAbsencesByRoll db (absencesOn db today)
  let total_students := db.students.length
  let total_absent := absent_students.length
  let total_present : Int := (total_students : Int) - (total_absent : Int)
  { absent_rows := absent_students,
    total_absent := total_absent,
    total_present := total_present,
    total_students := total_students,
    attendance_percentage :=
      pyRound2 (if 0 < total_students then
        (total_present : ℚ) / (total_students : ℚ) * 100 else 0) }

/-- Gregorian leap-year rule, as used by Python's `datetime` validation. -/
def isLeapYear (y : Nat) : Bool :=
  (y % 4 == 0 && y % 100 != 0) || y % 400 == 0

/-- Number of days in month `m` of year `y` (`datetime` validation). -/
def daysInMonth (y m : Nat) : Nat :=
  if m == 2 then (if isLeapYear y then 29 else 28)
  else if m == 4 || m == 6 || m == 9 || m == 11 then 30
  else 31

/-- Split a character sequence at every `'-'` (the literal separators of
the `%Y-%m-%d` format). -/
def splitDash : List Char → List (List Char)
  | [] => [[]]
  | c :: cs =>
    match splitDash cs with
    | [] => if c = '-' then [[], []] else [[c]]
    | g :: gs => if c = '-' then [] :: g :: gs else (c :: g) :: gs

/-- The numeric value of a digit sequence. -/
def digitsToNat (cs : List Char) : Nat :=
  cs.foldl (fun n c => n * 10 + (c.toNat - 48)) 0

/-- Models `datetime.strptime(s, '%Y-%m-%d').date()`: `%Y` matches exactly
four digits, `%m` and `%d` one or two digits; the whole string must be
consumed; the resulting year/month/day must form a valid `datetime.date`
(year at least 1, month 1–12, day within the month).  `none` models the
`ValueError` raised on any malformed input. -/
def parseYMD (s : String) : Option Date :=
  match splitDash s.data with
  | [ys, ms, ds] =>
    if ys.length == 4 && ys.all Char.isDigit
        && decide (1 ≤ ms.length) && decide (ms.length ≤ 2) && ms.all Char.isDigit
        && decide (1 ≤ ds.length) && decide (ds.length ≤ 2) && ds.all Char.isDigit then
      let y := digitsToNat ys
      let m := digitsToNat ms
      let d := digitsToNat ds
      if decide (1 ≤ y) && decide (1 ≤ m) && decide (m ≤ 12)
          && decide (1 ≤ d) && decide (d ≤ daysInMonth y m) then
        some { year := y, month := m, day := d }
      else none
    else none
  | _ => none

/-- The uncaught Python exception `absentees_list` can raise: referencing
the local variable `filter_date` in the render context when the
`except ValueError` branch left it unassigned. -/
inductive PyRuntimeError where
  | unboundLocalError
deriving DecidableEq, Repr

/-- `absentees_list` (`views.py`): the optional `date` GET parameter.  A
missing or empty parameter (`if date_filter:` falsy) lists today's
absentees.  A parameter that parses as `%Y-%m-%d` lists that date's
absentees ordered by roll number.  On a `ValueError` the handler assigns
an empty queryset but never assigns `filter_date`, so building the render
context raises `UnboundLocalError`. -/
def absentees_list (db : DB) (dateFilter : Option String) (today : Date) :
    Except PyRuntimeError (List Absence × Date) :=
  match dateFilter with
  | none => .ok (sortAbsencesByRoll db (absencesOn db today), today)
  | some s =>
    if s = "" then .ok (sortAbsencesByRoll db (absencesOn db today), today)
    else
      match parseYMD s with
      | some d => .ok (sortAbsencesByRoll db (absencesOn db d), d)
      | none => .error .unboundLocalError

/-- A row of the parsed tabular input (pandas `DataFrame` row): an
association list from column name to cell value rendered as a string. -/
def Row : Type := List (String × String)

/-- `row[c]` rendered through `str(...)`: the value of column `c`
in row `r`. -/
def getCol (r : Row) (c : String) : String :=
  ((r.find? (fun p => decide (p.1 = c))).map (fun p => p.2)).getD ""

/-- The parsed tabular input: its column set and its rows. -/
structure ImportFile where
  columns : List String
  rows : List Row

/-- Whitespace characters removed by Python `str.strip()` (modelled for
the ASCII whitespace set). -/
def isPySpace (c : Char) : Bool :=
  c == ' ' || c == '\t' || c == '\n' || c == '\r' || c == '\x0b' || c == '\x0c'

/-- Models Python `str.strip()`: removes leading and trailing
whitespace. -/
def pyStrip (s : String) : String :=
  { data := ((s.data.dropWhile isPySpace).reverse.dropWhile isPySpace).reverse }

/-- The three required columns checked by `import_students`. -/
def requiredColumns : List String :=
  ["Student Name", "Roll Number", "Course Name"]

/-- `all(col in df.columns for col in required_columns)`. -/
def hasRequiredColumns (f : ImportFile) : Bool :=
  requiredColumns.all (fun c => f.columns.contains c)

/-- Import failure surfaced as a user-facing message: missing required
columns. -/
inductive ImportFailure where
  | schemaError
deriving DecidableEq, Repr

/-- The trimmed roll-number key of a row:
`str(row['Roll Number']).strip()`. -/
def rollKey (r : Row) : String :=
  pyStrip (getCol r "Roll Number")

/-- `Student.objects.get_or_create(roll_number=..., defaults=...)` for one
row: if a student with the trimmed roll number exists the row is skipped,
otherwise a student is created from the trimmed fields.  Returns the store
and whether a row was created. -/
def newStudent (db : DB) (r : Row) : Student :=
  { id := db.nextStudentId,
    student_name := pyStrip (getCol r "Student Name"),
    roll_number := rollKey r,
    course_name := pyStrip (getCol r "Course Name") }

def importRowStep (db : DB) (r : Row) : DB × Bool :=
  if db.students.any (fun s => decide (s.roll_number = rollKey r)) then
    (db, false)
  else
    ({ db with
        students := db.students ++ [newStudent db r],
        nextStudentId := db.nextStudentId + 1 },
      true)

/-- The row loop of `import_students`: fold `importRowStep` over the rows,
counting created students. -/
def importRows (db : DB) : List Row → DB × Nat
  | [] => (db, 0)
  | r :: rs =>
    let step := importRowStep db r
    let rest := importRows step.1 rs
    (rest.1, (if step.2 then 1 else 0) + rest.2)

/-- `import_students` (`views.py`), from the parsed `DataFrame` on: check
the required columns before any row processing (on failure the store is
untouched and a `SchemaError`-style message is shown), then upsert each
row by roll number and report the created count. -/
def import_students (db : DB) (f : ImportFile) :
    DB × Except ImportFailure Nat :=
  if hasRequiredColumns f then
    let res := importRows db f.rows
    (res.1, .ok res.2)
  else
    (db, .error .schemaError)

/-- The roll numbers currently in the roster. -/
def rollsOf (db : DB) : List String :=
  db.students.map (fun s => s.roll_number)

/-! ### Concrete sample states -/

/-- A sample calendar day. -/
def dDate : Date := { year := 2025, month := 1, day := 10 }

/-- A clock reading on `dDate`. -/
def tNow : DateTime := { date := dDate, secondsOfDay := 34200 }

/-- A later clock reading on the same day `dDate`. -/
def tNow2 : DateTime := { date := dDate, secondsOfDay := 34260 }

/-- Sample student with roll number "1". -/
def stA : Student :=
  { id := 1, student_name := "Ann", roll_number := "1", course_name := "CS" }

/-- Sample student with roll number "2". -/
def stB : Student :=
  { id := 2, student_name := "Bob", roll_number := "2", course_name := "CS" }

/-- An empty store. -/
def dbEmpty : DB := { students := [], absences := [], nextStudentId := 1 }

/-- A two-student roster with no absences. -/
def dbAB : DB := { students := [stA, stB], absences := [], nextStudentId := 3 }

/-- A store where student 1 already has one absence row dated `dDate`. -/
def dbOne : DB :=
  { students := [stA, stB],
    absences := [{ student_id := 1, date_time := tNow }],
    nextStudentId := 3 }

/-- A corrupted store: two absence rows for student 1 on the same day,
violating the one-row-per-(student, day) invariant. -/
def dbDup : DB :=
  { students := [stA, stB],
    absences := [{ student_id := 1, date_time := tNow },
                 { student_id := 1, date_time := tNow2 }],
    nextStudentId := 3 }

/-- The spec's import scenario: one row ("Jane", "R1", "CS") appearing
twice in the same file. -/
def fileJane : ImportFile :=
  { columns := ["Student Name", "Roll Number", "Course Name"],
    rows := [[("Student Name", "Jane"), ("Roll Number", "R1"), ("Course Name", "CS")],
             [("Student Name", "Jane"), ("Roll Number", "R1"), ("Course Name", "CS")]] }

/-- A tabular input missing the required "Course Name" column. -/
def fileBad : ImportFile :=
  { columns := ["Student Name", "Roll Number"],
    rows := [[("Student Name", "Jane"), ("Roll Number", "R1")]] }

end AttApp

deriving instance DecidableEq for Except

namespace AttApp

/-! ### Theorems -/

lemma pyRound2_zero : pyRound2 0 = 0 := by
  norm_num [pyRound2, roundHalfEven, ratFloor]

/-- C3: the claim says a malformed `date` yields an empty result with no
error; the code instead raises `UnboundLocalError`: the `except ValueError`
handler assigns the empty queryset but leaves `filter_date` unassigned,
and the render context then references `filter_date`.  Evaluated at the
spec's own scenario input `date="not-a-date"`. -/
theorem absentees_list_malformed_raises :
    absentees_list dbOne (some "not-a-date") dDate =
      Except.error PyRuntimeError.unboundLocalError := by
  decide

/-- C5: in every store and for every date, the report satisfies
`totalPresent + totalAbsent = totalStudents`, where `totalAbsent` is the
number of absence rows dated that date and `totalStudents` the roster
size. -/
theorem report_totals_invariant (db : DB) (d : Date) :
    (print_absentees db d).total_absent = (absencesOn db d).length
    ∧ (print_absentees db d).total_students = db.students.length
    ∧ (print_absentees db d).total_present
        + ((print_absentees db d).total_absent : Int)
      = ((print_absentees db d).total_students : Int) := by
  refine ⟨?_, rfl, ?_⟩
  · simp [print_absentees, sortAbsencesByRoll,
      (List.perm_insertionSort (absRollLe db) (absencesOn db d)).length_eq]
  · simp only [print_absentees]
    omega

/-- C6: the report's percentage is
`round(totalPresent / totalStudents * 100, 2)` whenever the roster is
non-empty, and `0` on an empty roster, with no division involved in the
empty case. -/
theorem report_percentage_def (db : DB) (d : Date) :
    ((print_absentees db d).total_students = 0 →
      (print_absentees db d).attendance_percentage = 0)
    ∧ (0 < (print_absentees db d).total_students →
      (print_absentees db d).attendance_percentage =
        pyRound2 (((print_absentees db d).total_present : ℚ)
          / ((print_absentees db d).total_students : ℚ) * 100)) := by
  simp only [print_absentees]
  constructor
  · intro h
    rw [if_neg (by omega)]
    exact pyRound2_zero
  · intro h
    rw [if_pos h]

/-- Witness for C6: the empty roster reports percentage 0, and a
non-empty roster reports the rounded ratio. -/
theorem report_percentage_def_witness :
    (print_absentees dbEmpty dDate).attendance_percentage = 0
    ∧ (print_absentees dbOne dDate).attendance_percentage =
        pyRound2 (((print_absentees dbOne dDate).total_present : ℚ)
          / ((print_absentees dbOne dDate).total_students : ℚ) * 100) :=
  ⟨(report_percentage_def dbEmpty dDate).1 rfl,
   (report_percentage_def dbOne dDate).2 (by decide)⟩

lemma mark_attendance_students (db : DB) (sid pos : Nat) (a : Decision)
    (now : DateTime) :
    (mark_attendance db sid pos a now).db.students = db.students := by
  unfold mark_attendance
  cases studentById db sid with
  | none => rfl
  | some s =>
    cases a with
    | present => rfl
    | absent =>
      cases habs : absencesFor db sid now.date with
      | nil => rfl
      | cons x xs =>
        cases xs with
        | nil => rfl
        | cons y ys => rfl

lemma studentById_congr {db₁ db₂ : DB} (h : db₁.students = db₂.students)
    (sid : Nat) : studentById db₁ sid = studentById db₂ sid := by
  simp [studentById, h]

lemma countFor_present_zero (db : DB) (sid pos : Nat) (now : DateTime)
    (hs : (studentById db sid).isSome = true) :
    countFor (mark_attendance db sid pos .present now).db sid now.date = 0 := by
  obtain ⟨s, hfind⟩ := Option.isSome_iff_exists.mp hs
  simp [mark_attendance, hfind, countFor, absencesFor, List.filter_filter]

/-- C10: marking PRESENT deletes all absence rows for `(student, today)`:
from every prior store, including a corrupted one holding several rows for
the same student and day, zero rows for `(student, today)` remain. -/
theorem mark_present_clears_all (db : DB) (sid pos : Nat) (now : DateTime)
    (hs : (studentById db sid).isSome = true) :
    countFor (mark_attendance db sid pos .present now).db sid now.date = 0 :=
  countFor_present_zero db sid pos now hs

/-- Witness for C10, at the corrupted store holding two absence rows for
student 1 on the same day. -/
theorem mark_present_clears_all_witness :
    countFor (mark_attendance dbDup 1 0 .present tNow2).db 1 tNow2.date = 0 :=
  mark_present_clears_all dbDup 1 0 tNow2 (by decide)

/-- C2: toggle correctness: marking ABSENT then PRESENT on the same day
leaves zero absence rows for `(student, today)`, from any starting store;
moreover the PRESENT branch alone always clears `(student, today)` and is
a no-op on the store when no such row exists. -/
theorem mark_toggle_clears (db : DB) (sid pos1 pos2 : Nat)
    (now1 now2 : DateTime)
    (hs : (studentById db sid).isSome = true)
    (hd : now2.date = now1.date) :
    countFor (mark_attendance (mark_attendance db sid pos1 .absent now1).db
        sid pos2 .present now2).db sid now1.date = 0
    ∧ countFor (mark_attendance db sid pos1 .present now1).db sid now1.date = 0
    ∧ (countFor db sid now1.date = 0 →
        (mark_attendance db sid pos1 .present now1).db = db) := by
  obtain ⟨s, hfind⟩ := Option.isSome_iff_exists.mp hs
  refine ⟨?_, countFor_present_zero db sid pos1 now1 hs, ?_⟩
  · have hs1 : (studentById (mark_attendance db sid pos1 .absent now1).db sid).isSome
        = true := by
      rw [studentById_congr (mark_attendance_students db sid pos1 .absent now1) sid]
      exact hs
    have h := countFor_present_zero (mark_attendance db sid pos1 .absent now1).db
      sid pos2 now2 hs1
    rwa [hd] at h
  · intro h0
    have hnil : absencesFor db sid now1.date = [] := by
      have := List.length_eq_zero.mp h0
      exact this
    have hself : db.absences.filter
        (fun a => !decide (a.student_id = sid ∧ a.date_time.date = now1.date))
        = db.absences := by
      refine List.filter_eq_self.mpr ?_
      intro a ha
      have h2 := List.filter_eq_nil_iff.mp hnil a ha
      simp only [decide_eq_true_eq] at h2
      simp [h2]
    simp only [mark_attendance, hfind]
    rw [hself]

/-- Witness for C2, from a store where student 1 is already marked
absent. -/
theorem mark_toggle_clears_witness :
    countFor (mark_attendance (mark_attendance dbOne 1 0 .absent tNow).db
        1 1 .present tNow2).db 1 tNow.date = 0
    ∧ countFor (mark_attendance dbOne 1 0 .present tNow).db 1 tNow.date = 0
    ∧ (countFor dbOne 1 tNow.date = 0 →
        (mark_attendance dbOne 1 0 .present tNow).db = dbOne) :=
  mark_toggle_clears dbOne 1 0 1 tNow tNow2 (by decide) (by decide)

/-- C1 counterexample: in a store already holding two absence rows for
`(student 1, today)`, each `mark(S, pos, ABSENT)` raises
`MultipleObjectsReturned` (from `get_or_create`) and changes nothing, so
two consecutive ABSENT marks leave two rows, not exactly one — the claim
fails for such a state. -/
theorem mark_absent_twice_corrupted :
    countFor (mark_attendance (mark_attendance dbDup 1 0 .absent tNow).db
        1 1 .absent tNow2).db 1 tNow.date = 2
    ∧ (mark_attendance dbDup 1 0 .absent tNow).error
        = some MarkError.multipleObjectsReturned := by
  decide

/-- C1 (amended): for every store holding at most one absence row for
`(S, today)` — the data-model invariant — marking ABSENT twice in a row on
the same day leaves exactly one absence row for `(S, today)`, and the
second call returns with no error and exactly the same store: it neither
creates a duplicate row nor updates the timestamp of the existing row. -/
lemma mark_absent_creates (db : DB) (sid pos : Nat) (now : DateTime)
    (s : Student) (hfind : studentById db sid = some s)
    (habs : absencesFor db sid now.date = []) :
    mark_attendance db sid pos .absent now
      = { db := { db with absences := db.absences
            ++ [{ student_id := sid, date_time := now }] },
          error := none, nextIndex := pos + 1 } := by
  simp only [mark_attendance, hfind, habs]

lemma mark_absent_noop (db : DB) (sid pos : Nat) (now : DateTime)
    (s : Student) (a : Absence) (hfind : studentById db sid = some s)
    (habs : absencesFor db sid now.date = [a]) :
    mark_attendance db sid pos .absent now
      = { db := db, error := none, nextIndex := pos + 1 } := by
  simp only [mark_attendance, hfind, habs]

theorem mark_absent_idempotent (db : DB) (sid pos1 pos2 : Nat)
    (now1 now2 : DateTime)
    (hs : (studentById db sid).isSome = true)
    (hd : now2.date = now1.date)
    (hinv : countFor db sid now1.date ≤ 1) :
    countFor (mark_attendance db sid pos1 .absent now1).db sid now1.date = 1
    ∧ mark_attendance (mark_attendance db sid pos1 .absent now1).db
        sid pos2 .absent now2
      = { db := (mark_attendance db sid pos1 .absent now1).db,
          error := none, nextIndex := pos2 + 1 } := by
  obtain ⟨s, hfind⟩ := Option.isSome_iff_exists.mp hs
  have hfind1 : studentById (mark_attendance db sid pos1 .absent now1).db sid
      = some s := by
    rw [studentById_congr (mark_attendance_students db sid pos1 .absent now1) sid]
    exact hfind
  cases habs : absencesFor db sid now1.date with
  | nil =>
    have hdb1 := mark_absent_creates db sid pos1 now1 s hfind habs
    have habs1 : absencesFor (mark_attendance db sid pos1 .absent now1).db
        sid now1.date = [{ student_id := sid, date_time := now1 }] := by
      rw [hdb1]
      simp only [absencesFor] at habs ⊢
      rw [List.filter_append, habs]
      simp
    refine ⟨by simp [countFor, habs1], ?_⟩
    have habs2 : absencesFor (mark_attendance db sid pos1 .absent now1).db
        sid now2.date = [{ student_id := sid, date_time := now1 }] := by
      rw [hd]; exact habs1
    exact mark_absent_noop _ sid pos2 now2 s _ hfind1 habs2
  | cons x xs =>
    cases xs with
    | nil =>
      have hdb1 : (mark_attendance db sid pos1 .absent now1).db = db :=
        congrArg MarkResult.db (mark_absent_noop db sid pos1 now1 s x hfind habs)
      refine ⟨by rw [hdb1]; simp [countFor, habs], ?_⟩
      have habs2 : absencesFor (mark_attendance db sid pos1 .absent now1).db
          sid now2.date = [x] := by
        rw [hdb1, hd]; exact habs
      rw [mark_absent_noop _ sid pos2 now2 s x hfind1 habs2, hdb1]
    | cons y ys =>
      exfalso
      have h2 : countFor db sid now1.date = ys.length + 2 := by
        simp [countFor, habs]
      omega

/-- Witness for C1 (amended): starting from the two-student store with no
absences, two consecutive ABSENT marks for student 1 on day `dDate`. -/
theorem mark_absent_idempotent_witness :
    countFor (mark_attendance dbAB 1 0 .absent tNow).db 1 tNow.date = 1
    ∧ mark_attendance (mark_attendance dbAB 1 0 .absent tNow).db 1 1 .absent tNow2
      = { db := (mark_attendance dbAB 1 0 .absent tNow).db,
          error := none, nextIndex := 2 } :=
  mark_absent_idempotent dbAB 1 0 1 tNow tNow2 (by decide) (by decide) (by decide)

/-- C9 counterexample: a `mark` call that performs zero writes.  In a
store where student 1 already has an absence row for today, marking
ABSENT again completes normally and returns the store unchanged — no
insert and no delete — refuting "exactly one write per call". -/
theorem mark_zero_writes :
    mark_attendance dbOne 1 0 .absent tNow2
      = { db := dbOne, error := none, nextIndex := 1 } := by
  decide

/-- C9 (amended): when the store satisfies the one-row-per-(student, day)
invariant for `(S, today)`, each `mark` call performs AT MOST one write to
the absence store — it leaves the store unchanged, appends exactly the one
row `(S, now)`, or deletes at most one existing row — and every write is
scoped to `(S, today)`: the roster and all absence rows for other students
or other days are unchanged. -/
theorem mark_writes_scoped (db : DB) (sid pos : Nat) (act : Decision)
    (now : DateTime)
    (hs : (studentById db sid).isSome = true)
    (hinv : countFor db sid now.date ≤ 1) :
    (mark_attendance db sid pos act now).db.students = db.students
    ∧ otherRows (mark_attendance db sid pos act now).db sid now.date
        = otherRows db sid now.date
    ∧ ((mark_attendance db sid pos act now).db.absences = db.absences
      ∨ (mark_attendance db sid pos act now).db.absences
          = db.absences ++ [{ student_id := sid, date_time := now }]
      ∨ ((mark_attendance db sid pos act now).db.absences
            = otherRows db sid now.date
          ∧ db.absences.length
              ≤ (mark_attendance db sid pos act now).db.absences.length + 1)) := by
  obtain ⟨s, hfind⟩ := Option.isSome_iff_exists.mp hs
  refine ⟨mark_attendance_students db sid pos act now, ?_⟩
  cases act with
  | present =>
    have hdb : (mark_attendance db sid pos .present now).db
        = { db with absences := db.absences.filter (fun a =>
            !decide (a.student_id = sid ∧ a.date_time.date = now.date)) } := by
      simp only [mark_attendance, hfind]
    constructor
    · rw [hdb]
      simp [otherRows, List.filter_filter]
    · refine Or.inr (Or.inr ⟨by rw [hdb]; rfl, ?_⟩)
      rw [hdb]
      have hsplit := List.length_eq_length_filter_add (l := db.absences)
        (fun a => decide (a.student_id = sid ∧ a.date_time.date = now.date))
      simp only [countFor, absencesFor] at hinv
      simp only []
      omega
  | absent =>
    cases habs : absencesFor db sid now.date with
    | nil =>
      have hdb := congrArg MarkResult.db (mark_absent_creates db sid pos now s hfind habs)
      constructor
      · rw [hdb]
        simp [otherRows, List.filter_append]
      · exact Or.inr (Or.inl (by rw [hdb]))
    | cons x xs =>
      cases xs with
      | nil =>
        have hdb : (mark_attendance db sid pos .absent now).db = db :=
          congrArg MarkResult.db (mark_absent_noop db sid pos now s x hfind habs)
        exact ⟨by rw [hdb], Or.inl (by rw [hdb])⟩
      | cons y ys =>
        exfalso
        have h2 : countFor db sid now.date = ys.length + 2 := by
          simp [countFor, habs]
        omega

/-- Witness for C9 (amended): marking student 1 ABSENT in the store with
no absence rows. -/
theorem mark_writes_scoped_witness :
    (mark_attendance dbAB 1 0 .absent tNow).db.students = dbAB.students
    ∧ otherRows (mark_attendance dbAB 1 0 .absent tNow).db 1 tNow.date
        = otherRows dbAB 1 tNow.date
    ∧ ((mark_attendance dbAB 1 0 .absent tNow).db.absences = dbAB.absences
      ∨ (mark_attendance dbAB 1 0 .absent tNow).db.absences
          = dbAB.absences ++ [{ student_id := 1, date_time := tNow }]
      ∨ ((mark_attendance dbAB 1 0 .absent tNow).db.absences
            = otherRows dbAB 1 tNow.date
          ∧ dbAB.absences.length
              ≤ (mark_attendance dbAB 1 0 .absent tNow).db.absences.length + 1)) :=
  mark_writes_scoped dbAB 1 0 .absent tNow (by decide) (by decide)

lemma isAbsent_iff (db : DB) (sid : Nat) (d : Date) :
    (!(absencesFor db sid d).isEmpty)
      = decide (∃ a ∈ db.absences, a.student_id = sid ∧ a.date_time.date = d) := by
  by_cases h : ∃ a ∈ db.absences, a.student_id = sid ∧ a.date_time.date = d
  · obtain ⟨a, ha, hp⟩ := h
    have hmem : a ∈ absencesFor db sid d := by
      simp [absencesFor, List.mem_filter, ha, hp]
    have hne : (absencesFor db sid d).isEmpty = false := by
      rcases hcase : absencesFor db sid d with _ | _
      · rw [hcase] at hmem
        cases hmem
      · rfl
    simp only [hne, Bool.not_false]
    exact (decide_eq_true ⟨a, ha, hp⟩).symm
  · have hnil : absencesFor db sid d = [] := by
      simp only [absencesFor]
      rw [List.filter_eq_nil_iff]
      intro a ha
      simp only [decide_eq_true_eq]
      intro hp
      exact h ⟨a, ha, hp⟩
    simp [hnil, h]

/-- C4: `take_attendance` presents the roster in roll-number ascending
order: the ordered roster is a permutation of the stored roster, sorted
under the roll-number order, and of the roster's size.  When
`position >= roster size` the request redirects to the completion report;
when `position < roster size` it renders the student at that ordinal
position together with a boolean that is true exactly when an absence row
dated today exists for that student. -/
theorem take_attendance_spec (db : DB) (idx : Nat) (today : Date) :
    (sortedStudents db).Perm db.students
    ∧ List.Sorted rollLe (sortedStudents db)
    ∧ (sortedStudents db).length = db.students.length
    ∧ (db.students.length ≤ idx → take_attendance db idx today = .redirectComplete)
    ∧ ∀ h : idx < (sortedStudents db).length,
        take_attendance db idx today
          = .page ((sortedStudents db).get ⟨idx, h⟩) idx (sortedStudents db).length
              (decide (∃ a ∈ db.absences,
                a.student_id = ((sortedStudents db).get ⟨idx, h⟩).id
                ∧ a.date_time.date = today)) := by
  have hlen : (sortedStudents db).length = db.students.length :=
    (List.perm_insertionSort rollLe db.students).length_eq
  refine ⟨List.perm_insertionSort rollLe db.students,
    List.sorted_insertionSort rollLe db.students, hlen, ?_, ?_⟩
  · intro h
    simp only [take_attendance]
    rw [dif_neg (by omega)]
  · intro h
    simp only [take_attendance]
    rw [dif_pos h, isAbsent_iff]

/-- Witness for C4: on the two-student roster, position 5 redirects to the
completion report and position 0 renders the first student in roll order
with the absent-today flag. -/
theorem take_attendance_spec_witness :
    take_attendance dbAB 5 dDate = .redirectComplete
    ∧ take_attendance dbAB 0 dDate
        = .page ((sortedStudents dbAB).get ⟨0, by decide⟩) 0
            (sortedStudents dbAB).length
            (decide (∃ a ∈ dbAB.absences,
              a.student_id = ((sortedStudents dbAB).get ⟨0, by decide⟩).id
              ∧ a.date_time.date = dDate)) :=
  ⟨(take_attendance_spec dbAB 5 dDate).2.2.2.1 (by decide),
   (take_attendance_spec dbAB 0 dDate).2.2.2.2 (by decide)⟩

lemma importRowStep_skip {db : DB} {r : Row} (h : rollKey r ∈ rollsOf db) :
    importRowStep db r = (db, false) := by
  obtain ⟨s, hs, hroll⟩ := List.mem_map.mp h
  simp only [importRowStep]
  rw [if_pos (List.any_eq_true.mpr ⟨s, hs, by simp [hroll]⟩)]

lemma importRowStep_create {db : DB} {r : Row} (h : rollKey r ∉ rollsOf db) :
    importRowStep db r
      = ({ db with
            students := db.students ++ [newStudent db r],
            nextStudentId := db.nextStudentId + 1 }, true) := by
  simp only [importRowStep]
  rw [if_neg]
  intro hany
  obtain ⟨s, hs, hroll⟩ := List.any_eq_true.mp hany
  exact h (List.mem_map.mpr ⟨s, hs, by simpa using hroll.symm⟩)

lemma card_insert_eq_card_erase_add_one (x : String) (S : Finset String) :
    (insert x S).card = (S.erase x).card + 1 := by
  by_cases h : x ∈ S
  · rw [Finset.insert_eq_self.mpr h]
    exact (Finset.card_erase_add_one h).symm
  · rw [Finset.erase_eq_of_not_mem h, Finset.card_insert_of_not_mem h]

lemma importRows_spec : ∀ (rows : List Row) (db : DB),
    (∃ tail, (importRows db rows).1.students = db.students ++ tail)
    ∧ (importRows db rows).1.absences = db.absences
    ∧ (importRows db rows).1.students.length
        = db.students.length + (importRows db rows).2
    ∧ (importRows db rows).1.nextStudentId
        = db.nextStudentId + (importRows db rows).2
    ∧ (rollsOf (importRows db rows).1).toFinset
        = (rollsOf db).toFinset ∪ (rows.map rollKey).toFinset
    ∧ (importRows db rows).2
        = ((rows.map rollKey).toFinset \ (rollsOf db).toFinset).card
  | [], db => by
    refine ⟨⟨[], by simp [importRows]⟩, rfl, by simp [importRows], by simp [importRows],
      by simp [importRows], by simp [importRows]⟩
  | r :: rs, db => by
    by_cases h : rollKey r ∈ rollsOf db
    · have ih := importRows_spec rs db
      have hrows : importRows db (r :: rs)
          = ((importRows db rs).1, (importRows db rs).2) := by
        simp only [importRows, importRowStep_skip h]
        simp
      rw [hrows]
      obtain ⟨⟨tail, ht⟩, habs, hlen, hnext, hrolls, hcount⟩ := ih
      have hkB : rollKey r ∈ (rollsOf db).toFinset := List.mem_toFinset.mpr h
      refine ⟨⟨tail, ht⟩, habs, by simpa using hlen, by simpa using hnext, ?_, ?_⟩
      · rw [hrolls]
        simp only [List.map_cons, List.toFinset_cons, Finset.union_insert]
        rw [Finset.insert_eq_self.mpr (Finset.mem_union_left _ hkB)]
      · rw [hcount]
        simp only [List.map_cons, List.toFinset_cons]
        rw [Finset.insert_sdiff_of_mem _ hkB]
    · have hstep := importRowStep_create h
      set db' : DB := { db with
        students := db.students ++ [newStudent db r],
        nextStudentId := db.nextStudentId + 1 } with hdb'
      have hrows : importRows db (r :: rs)
          = ((importRows db' rs).1, 1 + (importRows db' rs).2) := by
        simp only [importRows, hstep, hdb']
        simp
      have ih := importRows_spec rs db'
      rw [hrows]
      obtain ⟨⟨tail, ht⟩, habs, hlen, hnext, hrolls, hcount⟩ := ih
      have hroll' : rollsOf db' = rollsOf db ++ [rollKey r] := by
        simp [rollsOf, hdb', newStudent]
      have hrollFin : (rollsOf db').toFinset
          = insert (rollKey r) (rollsOf db).toFinset := by
        rw [hroll', List.toFinset_append, Finset.union_comm]
        simp [Finset.insert_eq]
      have hkB : rollKey r ∉ (rollsOf db).toFinset := fun hc => h (List.mem_toFinset.mp hc)
      refine ⟨⟨[newStudent db r] ++ tail, by rw [ht, hdb']; simp⟩, by rw [habs],
        ?_, ?_, ?_, ?_⟩
      · rw [hlen, hdb']
        simp
        omega
      · rw [hnext]
        simp [hdb']
        omega
      · rw [hrolls, hrollFin]
        simp only [List.map_cons, List.toFinset_cons]
        rw [Finset.insert_union, Finset.union_insert]
      · rw [hcount, hrollFin]
        simp only [List.map_cons, List.toFinset_cons]
        rw [Finset.sdiff_insert,
          Finset.insert_sdiff_of_not_mem _ hkB,
          card_insert_eq_card_erase_add_one]
        omega

/-- C7: with the required columns present, importing a file upserts by
roll number: every pre-existing student row survives unchanged (name and
course preserved); importing the same file again creates zero students
and leaves the store exactly as it was; and when none of the file's roll
numbers are in the roster yet, the created-count equals the number of
distinct (trimmed) roll numbers in the file. -/
theorem import_students_idempotent (db : DB) (f : ImportFile)
    (hcols : hasRequiredColumns f = true) :
    ∃ db1 n1, import_students db f = (db1, Except.ok n1)
      ∧ (∃ tail, db1.students = db.students ++ tail)
      ∧ import_students db1 f = (db1, Except.ok 0)
      ∧ ((∀ r ∈ f.rows, rollKey r ∉ rollsOf db) →
          n1 = (f.rows.map rollKey).toFinset.card) := by
  have himp : import_students db f
      = ((importRows db f.rows).1, Except.ok (importRows db f.rows).2) := by
    simp [import_students, hcols]
  set db1 := (importRows db f.rows).1 with hdb1
  have hspec := importRows_spec f.rows db
  have hsub : (f.rows.map rollKey).toFinset ⊆ (rollsOf db1).toFinset := by
    rw [← hdb1] at hspec
    rw [hspec.2.2.2.2.1]
    exact Finset.subset_union_right
  have hspec2 := importRows_spec f.rows db1
  have hcount0 : (importRows db1 f.rows).2 = 0 := by
    rw [hspec2.2.2.2.2.2, Finset.card_eq_zero, Finset.sdiff_eq_empty_iff_subset]
    exact hsub
  have hfix : (importRows db1 f.rows).1 = db1 := by
    obtain ⟨⟨tail, ht⟩, habs, hlen, hnext, _, _⟩ := hspec2
    rw [hcount0] at hlen hnext
    have htail : tail = [] := by
      rw [ht] at hlen
      simpa using hlen
    ext1
    · rw [ht, htail]
      simp
    · rw [habs]
    · omega
  refine ⟨db1, (importRows db f.rows).2, himp, hspec.1, ?_, ?_⟩
  · rw [show import_students db1 f
        = ((importRows db1 f.rows).1, Except.ok (importRows db1 f.rows).2) from
      by simp [import_students, hcols], hfix, hcount0]
  · intro hnew
    rw [hspec.2.2.2.2.2]
    have hdisj : Disjoint (f.rows.map rollKey).toFinset (rollsOf db).toFinset := by
      rw [Finset.disjoint_left]
      intro x hx
      obtain ⟨r, hr, hkey⟩ := List.mem_map.mp (List.mem_toFinset.mp hx)
      rw [← hkey]
      intro hc
      exact hnew r hr (List.mem_toFinset.mp hc)
    rw [Finset.sdiff_eq_self_iff_disjoint.mpr hdisj]

/-- Witness for C7: the spec's scenario — a file whose rows are
("Jane", "R1", "CS") twice, imported into the two-student roster. -/
theorem import_students_idempotent_witness :
    ∃ db1 n1, import_students dbAB fileJane = (db1, Except.ok n1)
      ∧ (∃ tail, db1.students = dbAB.students ++ tail)
      ∧ import_students db1 fileJane = (db1, Except.ok 0)
      ∧ ((∀ r ∈ fileJane.rows, rollKey r ∉ rollsOf dbAB) →
          n1 = (fileJane.rows.map rollKey).toFinset.card) :=
  import_students_idempotent dbAB fileJane (by decide)

/-- C8: when any required column is missing from the input's column set,
`import_students` reports a schema error and leaves the store untouched:
the check precedes all row processing, so no student is created. -/
theorem import_schema_error (db : DB) (f : ImportFile)
    (h : hasRequiredColumns f = false) :
    import_students db f = (db, Except.error ImportFailure.schemaError) := by
  simp [import_students, h]

/-- Witness for C8: a file missing the "Course Name" column is rejected
and creates nothing. -/
theorem import_schema_error_witness :
    import_students dbAB fileBad = (dbAB, Except.error ImportFailure.schemaError) :=
  import_schema_error dbAB fileBad (by decide)

end AttApp
